import Mathlib

set_option maxRecDepth 100000
set_option maxHeartbeats 1600000

/-!
Shallow embedding of the log-streaming and redaction core of the
intellig-k8s repository (backend `utils/secrets.ts`, `services/log-streamer.ts`,
`services/ai-analyst.ts`, `server.ts`, and the frontend `AIAnalyst`/`LogViewer`
components), together with theorems settling the frozen claims about it.

Text is modelled as `List Char` / `String`.  JavaScript `String.replace` with a
global regex is modelled as a left-to-right scan that replaces each
non-overlapping leftmost match and resumes after it; the six concrete patterns
of `SECRET_PATTERNS` are implemented directly as prefix matchers with the
backtracking behaviour of the JS regex engine on those patterns.  JS `\s` is
modelled by the ASCII whitespace characters (the inputs of interest are ASCII).
-/

namespace Intellig

/-- Decidable equality for `Except` results (used to evaluate the embedded
fallible operations on concrete inputs). -/
instance {ε α : Type} [DecidableEq ε] [DecidableEq α] : DecidableEq (Except ε α) := fun a b =>
  match a, b with
  | .ok x, .ok y =>
    if h : x = y then isTrue (by rw [h]) else isFalse (fun hh => by cases hh; exact h rfl)
  | .error x, .error y =>
    if h : x = y then isTrue (by rw [h]) else isFalse (fun hh => by cases hh; exact h rfl)
  | .ok _, .error _ => isFalse (fun hh => by cases hh)
  | .error _, .ok _ => isFalse (fun hh => by cases hh)

/-- The fixed redaction marker `'[REDACTED]'` from `utils/secrets.ts`. -/
def redactedMarker : List Char := "[REDACTED]".data

/-- JS `\s` on ASCII text: space, tab, LF, VT, FF, CR. -/
def isJsSpace (c : Char) : Bool :=
  c == ' ' || c == Char.ofNat 9 || c == Char.ofNat 10 ||
  c == Char.ofNat 11 || c == Char.ofNat 12 || c == Char.ofNat 13

/-- The character class `["']` (double or single quote). -/
def isQuoteChar (c : Char) : Bool :=
  c == Char.ofNat 34 || c == Char.ofNat 39

/-- The character class `[^\s"']` (value characters of the key/value patterns). -/
def isValueChar (c : Char) : Bool :=
  !(isJsSpace c) && !(isQuoteChar c)

/-- The character class `[0-9A-Z]`. -/
def isUpperDigit (c : Char) : Bool :=
  (65 ≤ c.toNat && c.toNat ≤ 90) || (48 ≤ c.toNat && c.toNat ≤ 57)

/-- ASCII `[A-Za-z0-9]`. -/
def isAsciiAlnum (c : Char) : Bool :=
  isUpperDigit c || (97 ≤ c.toNat && c.toNat ≤ 122)

/-- The character class `[A-Za-z0-9/+=]` (AWS secret access key pattern). -/
def isAwsKeyChar (c : Char) : Bool :=
  isAsciiAlnum c || c == '/' || c == '+' || c == '='

/-- The character class `[A-Za-z0-9+/]` (generic base64 pattern). -/
def isB64Char (c : Char) : Bool :=
  isAsciiAlnum c || c == '+' || c == '/'

/-- The character class `[A-Za-z0-9_-]` (JWT segment characters). -/
def isJwtSegChar (c : Char) : Bool :=
  isAsciiAlnum c || c == '_' || c == '-'

/-- Case-insensitive literal match: if `s` starts with `kw` (compared after
lowercasing `s`, `kw` given lowercase), return the rest of `s`. -/
def ciStrip : List Char → List Char → Option (List Char)
  | [], s => some s
  | _ :: _, [] => none
  | k :: ks, c :: cs => if c.toLower == k then ciStrip ks cs else none

/-- Case-sensitive literal match returning the rest on success. -/
def litStrip : List Char → List Char → Option (List Char)
  | [], s => some s
  | _ :: _, [] => none
  | k :: ks, c :: cs => if c == k then litStrip ks cs else none

/-- Length of a keyword alternative if it matches case-insensitively at the
start of `s`, as a candidate list (empty or singleton). -/
def ciKeywordLen (kw : String) (s : List Char) : List Nat :=
  match ciStrip kw.data s with
  | some _ => [kw.length]
  | none => []

/-- Candidate length for the alternative `api[_-]?key` (case-insensitive);
the greedy optional `[_-]` is tried first, as in the JS engine. -/
def apiKeyLen (s : List Char) : List Nat :=
  match ciStrip "api".data s with
  | none => []
  | some r =>
    match r with
    | c :: r2 =>
      if c == '_' || c == '-' then
        match ciStrip "key".data r2 with
        | some _ => [7]
        | none =>
          match ciStrip "key".data r with
          | some _ => [6]
          | none => []
      else
        match ciStrip "key".data r with
        | some _ => [6]
        | none => []
    | [] => []

/-- Keyword alternatives of the first secret pattern, in the source's
alternation order, as candidate match lengths at the start of `s`. -/
def p1KeywordLens (s : List Char) : List Nat :=
  ciKeywordLen "password" s ++ ciKeywordLen "passwd" s ++ ciKeywordLen "pwd" s ++
  ciKeywordLen "secret" s ++ ciKeywordLen "key" s ++ ciKeywordLen "token" s ++
  ciKeywordLen "auth" s ++ apiKeyLen s ++ ciKeywordLen "bearer" s

/-- Keyword alternatives of the second secret pattern in alternation order. -/
def p2KeywordLens (s : List Char) : List Nat :=
  ciKeywordLen "authorization" s ++ ciKeywordLen "x-api-key" s ++
  ciKeywordLen "x-auth-token" s

/-- Try candidate keyword lengths in order; the first for which the rest of
the pattern succeeds wins (regex alternation backtracking). -/
def pickFirst {α : Type} : List Nat → (Nat → Option α) → Option α
  | [], _ => none
  | k :: ks, f =>
    match f k with
    | some r => some r
    | none => pickFirst ks f

/-- `\s*["']?([^\s"']+)["']?` after the separator: returns the number of
characters consumed and the captured value group.  If an opening quote is
consumed but no value character follows, the regex backtracks to the
quote-less branch, which then also fails on the quote character. -/
def valuePart (r2 : List Char) : Option (Nat × List Char) :=
  let ws2 := r2.takeWhile isJsSpace
  let r3 := r2.dropWhile isJsSpace
  let (openQ, r4) :=
    match r3 with
    | q :: rest => if isQuoteChar q then ((1 : Nat), rest) else ((0 : Nat), r3)
    | [] => ((0 : Nat), ([] : List Char))
  let v := r4.takeWhile isValueChar
  let r5 := r4.dropWhile isValueChar
  if v.isEmpty then none
  else
    let closeQ : Nat :=
      match r5 with
      | q :: _ => if isQuoteChar q then 1 else 0
      | [] => 0
    some (ws2.length + openQ + v.length + closeQ, v)

/-- `\s*[:=]` followed by `valuePart` (rest of the first secret pattern after
its keyword). -/
def restMatchKV (s : List Char) : Option (Nat × List Char) :=
  let ws1 := s.takeWhile isJsSpace
  match s.dropWhile isJsSpace with
  | sep :: r2 =>
    if sep == ':' || sep == '=' then
      match valuePart r2 with
      | some (n, v) => some (ws1.length + 1 + n, v)
      | none => none
    else none
  | [] => none

/-- `:` followed by `valuePart` (rest of the second secret pattern after its
keyword; note there is no `\s*` before the colon in that pattern). -/
def restMatchColon (s : List Char) : Option (Nat × List Char) :=
  match s with
  | sep :: r2 =>
    if sep == ':' then
      match valuePart r2 with
      | some (n, v) => some (1 + n, v)
      | none => none
    else none
  | [] => none

/-- Prefix match of
`(password|passwd|pwd|secret|key|token|auth|api[_-]?key|bearer)\s*[:=]\s*["']?([^\s"']+)["']?`
(case-insensitive): match length and captured value group. -/
def p1MatchAt (s : List Char) : Option (Nat × List Char) :=
  pickFirst (p1KeywordLens s) fun kl =>
    match restMatchKV (s.drop kl) with
    | some (n, v) => some (kl + n, v)
    | none => none

/-- Prefix match of
`(authorization|x-api-key|x-auth-token):\s*["']?([^\s"']+)["']?`
(case-insensitive): match length and captured value group. -/
def p2MatchAt (s : List Char) : Option (Nat × List Char) :=
  pickFirst (p2KeywordLens s) fun kl =>
    match restMatchColon (s.drop kl) with
    | some (n, v) => some (kl + n, v)
    | none => none

/-- Prefix match of `AKIA[0-9A-Z]{16}` (case-sensitive): match length. -/
def akiaMatchAt (s : List Char) : Option Nat :=
  match litStrip "AKIA".data s with
  | some r => if 16 ≤ (r.takeWhile isUpperDigit).length then some 20 else none
  | none => none

/-- Prefix match of `[A-Za-z0-9/+=]{40}`: match length. -/
def awsKeyMatchAt (s : List Char) : Option Nat :=
  if 40 ≤ (s.takeWhile isAwsKeyChar).length then some 40 else none

/-- Prefix match of `eyJ[A-Za-z0-9_-]+\.[A-Za-z0-9_-]+\.[A-Za-z0-9_-]+`:
match length. -/
def jwtMatchAt (s : List Char) : Option Nat :=
  match litStrip "eyJ".data s with
  | none => none
  | some r =>
    let s1 := r.takeWhile isJwtSegChar
    if s1.isEmpty then none
    else
      match r.dropWhile isJwtSegChar with
      | c1 :: r2 =>
        if c1 == '.' then
          let s2 := r2.takeWhile isJwtSegChar
          if s2.isEmpty then none
          else
            match r2.dropWhile isJwtSegChar with
            | c2 :: r4 =>
              if c2 == '.' then
                let s3 := r4.takeWhile isJwtSegChar
                if s3.isEmpty then none
                else some (3 + s1.length + 1 + s2.length + 1 + s3.length)
              else none
            | [] => none
        else none
      | [] => none

/-- Prefix match of `[A-Za-z0-9+/]{20,}={0,2}`: match length (greedy run of at
least 20 base64 characters, then up to two `=`). -/
def base64MatchAt (s : List Char) : Option Nat :=
  let run := s.takeWhile isB64Char
  if 20 ≤ run.length then
    let rest := s.drop run.length
    let eqs := min 2 (rest.takeWhile (fun c => c == '=')).length
    some (run.length + eqs)
  else none

/-- Index of the first occurrence of `needle` in `hay` (JS `String.indexOf`). -/
def firstIdxOf (needle : List Char) : List Char → Option Nat
  | [] => if needle.isEmpty then some 0 else none
  | c :: cs =>
    if needle.isPrefixOf (c :: cs) then some 0
    else
      match firstIdxOf needle cs with
      | some i => some (i + 1)
      | none => none

/-- JS `hay.replace(needle, repl)` with a plain-string `needle`: replace the
first occurrence only; if there is none, return `hay` unchanged. -/
def jsReplaceFirst (hay needle repl : List Char) : List Char :=
  match firstIdxOf needle hay with
  | none => hay
  | some i => hay.take i ++ repl ++ hay.drop (i + needle.length)

/-- Global-replace scan for the two-capture-group patterns.  At each position
try the prefix matcher; on a match of length `n` with captured value `v`, the
source's replacer returns `match.replace(groups[1], '[REDACTED]')`, i.e. the
matched text with the first occurrence of `v` replaced by the marker; the scan
resumes after the match.  `fuel` bounds the remaining length. -/
def scanKV (m : List Char → Option (Nat × List Char)) : Nat → List Char → List Char
  | 0, s => s
  | _ + 1, [] => []
  | fuel + 1, c :: cs =>
    match m (c :: cs) with
    | none => c :: scanKV m fuel cs
    | some (n, v) =>
      if n == 0 then c :: scanKV m fuel cs
      else
        jsReplaceFirst ((c :: cs).take n) v redactedMarker ++
          scanKV m fuel ((c :: cs).drop n)

/-- Global-replace scan for the patterns without capture groups.  For those,
the replacer's rest-argument list is `[offset, string]`, so `groups.length >= 2`
holds and the source computes `match.replace(groups[1], '[REDACTED]')` where
`groups[1]` is the whole subject of this pass: the match is altered only when
it equals the entire subject. -/
def scanWhole (m : List Char → Option Nat) (subject : List Char) :
    Nat → List Char → List Char
  | 0, s => s
  | _ + 1, [] => []
  | fuel + 1, c :: cs =>
    match m (c :: cs) with
    | none => c :: scanWhole m subject fuel cs
    | some n =>
      if n == 0 then c :: scanWhole m subject fuel cs
      else
        jsReplaceFirst ((c :: cs).take n) subject redactedMarker ++
          scanWhole m subject fuel ((c :: cs).drop n)

/-- One global-replace pass of a two-group pattern over `s`. -/
def applyKV (m : List Char → Option (Nat × List Char)) (s : List Char) : List Char :=
  scanKV m s.length s

/-- One global-replace pass of a no-group pattern over `s`. -/
def applyWhole (m : List Char → Option Nat) (s : List Char) : List Char :=
  scanWhole m s s.length s

/-- `redactSecrets` on character lists: the six `SECRET_PATTERNS` passes in
source order, each operating on the output of the previous one. -/
def redactList (s : List Char) : List Char :=
  let r1 := applyKV p1MatchAt s
  let r2 := applyKV p2MatchAt r1
  let r3 := applyWhole akiaMatchAt r2
  let r4 := applyWhole awsKeyMatchAt r3
  let r5 := applyWhole jwtMatchAt r4
  applyWhole base64MatchAt r5

/-- `redactSecrets` from `utils/secrets.ts`. -/
def redactSecrets (text : String) : String :=
  String.mk (redactList text.data)

/-- Plain substring containment on character lists (JS `String.includes`). -/
def containsSub (hay needle : List Char) : Bool :=
  match hay with
  | [] => needle.isEmpty
  | _ :: cs => needle.isPrefixOf hay || containsSub cs needle

/-- JS `hay.includes(needle)` on strings. -/
def containsSubStr (hay needle : String) : Bool :=
  containsSub hay.data needle.data

/-- JS `split('\\n')` on character lists: the list of newline-separated
pieces (always nonempty; an empty input gives one empty piece). -/
def splitNl : List Char → List (List Char)
  | [] => [[]]
  | c :: cs =>
    match splitNl cs with
    | h :: t => if c == Char.ofNat 10 then [] :: h :: t else (c :: h) :: t
    | [] => [[c]]

/-- JS `s.split('\\n')` on strings. -/
def splitNlStr (s : String) : List String :=
  (splitNl s.data).map String.mk

/-- JS `array.join('\\n')`. -/
def joinNl : List String → String
  | [] => ""
  | [x] => x
  | x :: xs => x ++ "\n" ++ joinNl xs

/-- JS `String.prototype.trim` on ASCII text: drop whitespace at both ends. -/
def jsTrim (s : String) : String :=
  String.mk (((s.data.dropWhile isJsSpace).reverse.dropWhile isJsSpace).reverse)

/-- JS `String.prototype.toLowerCase` on ASCII text. -/
def jsToLower (s : String) : String :=
  String.mk (s.data.map Char.toLower)

/-! ## The WebSocket data path (`log-streamer.ts` data handler, `server.ts`) -/

/-- The `'data'` handler of `LogStreamer.startLogStream`: sanitize the chunk
with `redactSecrets`, then, if a filter pattern was supplied, compile it with
`new RegExp(pattern, 'i')` and keep only matching lines, forwarding them joined
by newlines only when at least one line matched.  `compile` stands for the JS
regex engine: it returns the compiled test, or `none` when the pattern is
invalid, in which case the `RegExp` constructor throws and the handler fails —
there is no fallback on this server-side path. -/
def handleChunk (compile : String → Option (String → Bool))
    (regexOpt : Option String) (raw : String) : Except Unit (Option String) :=
  let sanitized := redactSecrets raw
  match regexOpt with
  | none => .ok (some sanitized)
  | some pat =>
    match compile pat with
    | none => .error ()
    | some test =>
      let lines := splitNlStr sanitized
      let filtered := lines.filter test
      .ok (if 0 < filtered.length then some (joinNl filtered) else none)

/-- The four `MOCK_LOGS` scenarios of `log-streamer.ts`, flattened. -/
def mockAllLines : List String :=
  [ "2024-01-20T10:15:30.123Z kubelet Failed to pull image \"nginx:nonexistent\": rpc error: code = NotFound desc = failed to pull and unpack image \"docker.io/library/nginx:nonexistent\": failed to resolve reference \"docker.io/library/nginx:nonexistent\": docker.io/library/nginx:nonexistent: not found"
  , "2024-01-20T10:15:31.456Z kubelet Error: ErrImagePull"
  , "2024-01-20T10:15:32.789Z kubelet Back-off pulling image \"nginx:nonexistent\""
  , "2024-01-20T10:15:33.012Z kubelet Error: ImagePullBackOff"
  , "2024-01-20T10:20:15.123Z java -Xmx512m -jar app.jar"
  , "2024-01-20T10:20:16.456Z Loading application context..."
  , "2024-01-20T10:20:20.789Z OutOfMemoryError: Java heap space"
  , "2024-01-20T10:20:21.012Z Process exited with code 137"
  , "2024-01-20T10:20:22.345Z kubelet Container killed by OOM killer"
  , "2024-01-20T10:25:10.123Z Starting HTTP server on port 8080"
  , "2024-01-20T10:25:11.456Z Loading configuration..."
  , "2024-01-20T10:25:15.789Z kubelet Readiness probe failed: Get \"http://10.0.1.45:8080/health\": dial tcp 10.0.1.45:8080: connect: connection refused"
  , "2024-01-20T10:25:20.012Z kubelet Readiness probe failed: Get \"http://10.0.1.45:8080/health\": context deadline exceeded"
  , "2024-01-20T10:25:25.345Z Application started successfully on port 8080"
  , "2024-01-20T10:25:26.678Z kubelet Readiness probe succeeded"
  , "2024-01-20T10:30:00.123Z Starting application..."
  , "2024-01-20T10:30:01.456Z Loading configuration from /etc/config"
  , "2024-01-20T10:30:02.789Z Connecting to database..."
  , "2024-01-20T10:30:03.012Z Database connection established"
  , "2024-01-20T10:30:04.345Z Starting HTTP server on port 8080"
  , "2024-01-20T10:30:05.678Z Application ready to serve requests" ]

/-- Demo-mode WebSocket delivery (`server.ts`, `sendNextLog`): the mock line is
sent raw with a trailing newline, with no redaction call. -/
def demoModeSend (line : String) : String := line ++ "\n"

/-- Demo-mode AI-buffer storage (`server.ts`, `sendNextLog`): the raw mock line
is handed to `addLogChunk` with no redaction call. -/
def demoModeStored (line : String) : String := line

/-! ## Client-side line filter (`LogViewer` in the frontend) -/

/-- The predicate of `LogViewer`'s `filteredLogs`: an empty filter keeps every
line; otherwise try `new RegExp(filter, 'i')` and, if the construction throws
(`compile` returns `none`), fall back to case-insensitive plain substring
containment. -/
def clientFilterKeeps (compile : String → Option (String → Bool))
    (filter : String) (message : String) : Bool :=
  if filter = "" then true
  else
    match compile filter with
    | some test => test message
    | none => containsSubStr (jsToLower message) (jsToLower filter)

/-! ## `parseDuration` (`log-streamer.ts`) -/

/-- Split a leading run of decimal digits from a character list. -/
def splitDigits : List Char → List Char × List Char
  | [] => ([], [])
  | c :: rest =>
    if c.isDigit then
      let (ds, r) := splitDigits rest
      (c :: ds, r)
    else ([], c :: rest)

/-- The anchored regex `^(\d+)([smh])$`: digits (at least one) followed by
exactly one unit character. -/
def durationMatch (s : List Char) : Option (List Char × Char) :=
  match splitDigits s with
  | (ds, [u]) =>
    if 0 < ds.length ∧ (u = 's' ∨ u = 'm' ∨ u = 'h') then some (ds, u) else none
  | _ => none

/-- Decimal value of a digit run (JS `parseInt(digits, 10)`, modelled exactly). -/
def digitsVal (ds : List Char) : Nat :=
  ds.foldl (fun n c => n * 10 + (c.toNat - 48)) 0

/-- `LogStreamer.parseDuration`: seconds for `s`, minutes ×60, hours ×3600;
a string not matching `^(\d+)([smh])$` throws `Invalid duration format`. -/
def parseDuration (duration : String) : Except String Nat :=
  match durationMatch duration.data with
  | none => .error ("Invalid duration format: " ++ duration)
  | some (ds, unit) =>
    let value := digitsVal ds
    if unit = 's' then .ok value
    else if unit = 'm' then .ok (value * 60)
    else if unit = 'h' then .ok (value * 3600)
    else .error ("Unsupported duration unit: " ++ String.mk [unit])

/-! ## The stream registry (`LogStreamer`) -/

/-- The fields of `LogStreamOptions` used by the registry logic. -/
structure LogStreamOptions where
  ns : String
  pod : String
  container : String
  since : Option String
  regex : Option String
deriving DecidableEq, Repr

/-- `` `${namespace}/${pod}/${container}` `` — the stream identity key. -/
def streamKey (o : LogStreamOptions) : String :=
  o.ns ++ "/" ++ o.pod ++ "/" ++ o.container

/-- State of a `LogStreamer`: the `activeStreams` map (association list with
unique keys, JS `Map` entry order), the ids of destroyed `PassThrough`
streams, and a fresh-id counter for newly created streams. -/
structure StreamerState where
  activeStreams : List (String × Nat)
  destroyed : List Nat
  nextId : Nat
deriving DecidableEq, Repr

/-- JS `Map.get`. -/
def lookupKey : List (String × Nat) → String → Option Nat
  | [], _ => none
  | (k, v) :: rest, key => if k == key then some v else lookupKey rest key

/-- JS `Map.delete`: remove the (unique) entry with the given key. -/
def eraseKey : List (String × Nat) → String → List (String × Nat)
  | [], _ => []
  | (k, v) :: rest, key => if k == key then rest else (k, v) :: eraseKey rest key

/-- The keys of the registry are pairwise distinct (a JS `Map` invariant). -/
def keysNodup (l : List (String × Nat)) : Prop :=
  (l.map Prod.fst).Nodup

/-- `LogStreamer.stopLogStream`: if a stream is registered under the key,
destroy it and remove the entry; otherwise do nothing (and raise no error). -/
def stopLogStream (st : StreamerState) (streamId : String) : StreamerState :=
  match lookupKey st.activeStreams streamId with
  | some sid =>
    { activeStreams := eraseKey st.activeStreams streamId
    , destroyed := sid :: st.destroyed
    , nextId := st.nextId }
  | none => st

/-- `LogStreamer.startLogStream`: compute the key, stop any existing stream for
it, then parse the optional `since` duration, create the `PassThrough`, open
the upstream log request (`apiError` models the k8s API call outcome, an
external effect) and register the stream.  A parse or API failure is rethrown
as `Failed to start log stream: …` without registering anything. -/
def startLogStream (apiError : Option String) (st : StreamerState)
    (opts : LogStreamOptions) : StreamerState × Except String String :=
  let streamId := streamKey opts
  let st1 := stopLogStream st streamId
  let parsed : Except String Unit :=
    match opts.since with
    | none => .ok ()
    | some d =>
      match parseDuration d with
      | .ok _ => .ok ()
      | .error e => .error e
  match parsed with
  | .error e => (st1, .error ("Failed to start log stream: " ++ e))
  | .ok _ =>
    match apiError with
    | some e => ({ st1 with nextId := st1.nextId + 1 },
                 .error ("Failed to start log stream: " ++ e))
    | none =>
      ({ activeStreams := st1.activeStreams ++ [(streamId, st1.nextId)]
       , destroyed := st1.destroyed
       , nextId := st1.nextId + 1 }, .ok streamId)

/-! ## The analysis ring buffer (`AIAnalyst`) -/

/-- `maxBufferSize` from `ai-analyst.ts`. -/
def maxBufferSize : Nat := 2000

/-- The lines extracted from a chunk by `addLogChunk`: split on newlines and
drop blank lines (JS `filter(line => line.trim())`). -/
def chunkLines (logChunk : String) : List String :=
  (splitNlStr logChunk).filter (fun line => jsTrim line != "")

/-- `AIAnalyst.addLogChunk`: append the chunk's lines and, if the buffer now
exceeds the capacity, keep only the last `cap` lines (JS `slice(-cap)`). -/
def addLogChunk (cap : Nat) (logBuffer : List String) (logChunk : String) : List String :=
  let b := logBuffer ++ chunkLines logChunk
  if cap < b.length then b.drop (b.length - cap) else b

/-! ## The auto-analysis debounce (frontend `AIAnalyst` component) -/

/-- The component state relevant to the debounce: `lastAnalysisTime` (ms since
epoch) and the `isAnalyzing` flag. -/
structure AnalystUIState where
  lastAnalysisTime : Option Int
  isAnalyzing : Bool
deriving DecidableEq, Repr

/-- `analyzeLogsAutomatically`: skipped without a selection, on blank logs, or
while an analysis is in flight; also skipped when the new content is below the
50-character minimum.  Returns the state and whether the Analysis Bridge
(`streamAnalysis`) was invoked. -/
def analyzeLogsAutomatically (st : AnalystUIState) (hasSelection : Bool)
    (logs : String) : AnalystUIState × Bool :=
  if !hasSelection || jsTrim logs == "" || st.isAnalyzing then (st, false)
  else if logs.length < 50 then (st, false)
  else ({ st with isAnalyzing := false }, true)

/-- `analyzeNewLogs` (exposed via `useImperativeHandle`): if the previous
trigger happened less than 5000 ms ago, return without analyzing; otherwise
record the new trigger time and run `analyzeLogsAutomatically`. -/
def analyzeNewLogs (st : AnalystUIState) (now : Int) (logs : String)
    (hasSelection : Bool) : AnalystUIState × Bool :=
  match st.lastAnalysisTime with
  | some t =>
    if now - t < 5000 then (st, false)
    else analyzeLogsAutomatically { st with lastAnalysisTime := some now } hasSelection logs
  | none =>
    analyzeLogsAutomatically { st with lastAnalysisTime := some now } hasSelection logs

/-! ## No-match predicates (used to characterise inputs redaction leaves alone) -/

/-- `m` finds no match at any position of `s`. -/
def noMatchAny {α : Type} (m : List Char → Option α) : List Char → Bool
  | [] => true
  | c :: cs => (m (c :: cs)).isNone && noMatchAny m cs

/-- None of the six `SECRET_PATTERNS` matches anywhere in `t`. -/
def noSecretMatch (t : String) : Bool :=
  noMatchAny p1MatchAt t.data && noMatchAny p2MatchAt t.data &&
  noMatchAny akiaMatchAt t.data && noMatchAny awsKeyMatchAt t.data &&
  noMatchAny jwtMatchAt t.data && noMatchAny base64MatchAt t.data

/-! # Theorems -/

theorem scanKV_eq_self {m : List Char → Option (Nat × List Char)} :
    ∀ (fuel : Nat) (s : List Char), noMatchAny m s = true → scanKV m fuel s = s := by
  intro fuel
  induction fuel with
  | zero => intro s _; rfl
  | succ n ih =>
    intro s h
    cases s with
    | nil => rfl
    | cons c cs =>
      simp only [noMatchAny, Bool.and_eq_true, Option.isNone_iff_eq_none] at h
      obtain ⟨h1, h2⟩ := h
      simp [scanKV, h1, ih cs h2]

theorem scanWhole_eq_self {m : List Char → Option Nat} (subject : List Char) :
    ∀ (fuel : Nat) (s : List Char), noMatchAny m s = true → scanWhole m subject fuel s = s := by
  intro fuel
  induction fuel with
  | zero => intro s _; rfl
  | succ n ih =>
    intro s h
    cases s with
    | nil => rfl
    | cons c cs =>
      simp only [noMatchAny, Bool.and_eq_true, Option.isNone_iff_eq_none] at h
      obtain ⟨h1, h2⟩ := h
      simp [scanWhole, h1, ih cs h2]

/-- On an input where no secret pattern matches, `redactSecrets` is the
identity: every one of the six global-replace passes leaves it unchanged. -/
theorem redactSecrets_fixed (t : String) (h : noSecretMatch t = true) :
    redactSecrets t = t := by
  simp only [noSecretMatch, Bool.and_eq_true] at h
  obtain ⟨⟨⟨⟨⟨h1, h2⟩, h3⟩, h4⟩, h5⟩, h6⟩ := h
  show String.mk (redactList t.data) = t
  unfold redactList
  simp only [applyKV, applyWhole]
  rw [scanKV_eq_self _ _ h1, scanKV_eq_self _ _ h2, scanWhole_eq_self _ _ _ h3,
    scanWhole_eq_self _ _ _ h4, scanWhole_eq_self _ _ _ h5, scanWhole_eq_self _ _ _ h6]

/-- C1: the claim reads "for every input string containing a recognizable
secret pattern ... the output of redactSecrets contains no occurrence of the
original secret value".  The code violates it: for the no-capture-group
patterns the replace callback receives `(match, offset, string)`, so
`groups.length >= 2` holds and the replacer becomes
`match.replace(wholeInput, marker)`, a no-op unless the secret is the entire
input.  At `"see AKIA0123456789ABCDEF done"` (an embedded AWS access-key
identifier) the output equals the input and still contains the full secret,
while the same key alone is redacted — witnessing the intended behaviour the
slip defeats. -/
theorem redactSecrets_misses_embedded_aws_key :
    redactSecrets "see AKIA0123456789ABCDEF done" = "see AKIA0123456789ABCDEF done" ∧
    containsSubStr (redactSecrets "see AKIA0123456789ABCDEF done") "AKIA0123456789ABCDEF" = true ∧
    redactSecrets "AKIA0123456789ABCDEF" = "[REDACTED]" :=
  ⟨by decide, by decide, by decide⟩

/-- C3 counterexample: `redactSecrets` is not idempotent.  On `"pwd=pwd =z"`
the first pass replaces the first occurrence of the captured value `pwd`
inside the match `pwd=pwd` — which lies in the key, not the value — leaving
`"[REDACTED]=pwd =z"`, in which a second pass finds the fresh key/value match
`pwd =z` and redacts further. -/
theorem redactSecrets_not_idempotent :
    redactSecrets (redactSecrets "pwd=pwd =z") ≠ redactSecrets "pwd=pwd =z" := by
  decide

/-- C3 amended: `redactSecrets` is idempotent on every input in which no
secret pattern matches, where it acts as the identity (it is not idempotent in
general). -/
theorem redactSecrets_idempotent_on_matchless (t : String)
    (h : noSecretMatch t = true) :
    redactSecrets (redactSecrets t) = redactSecrets t := by
  rw [redactSecrets_fixed t h]
  exact redactSecrets_fixed t h

theorem redactSecrets_idempotent_on_matchless_witness :
    noSecretMatch "hello world" = true ∧
    redactSecrets (redactSecrets "hello world") = redactSecrets "hello world" :=
  ⟨by decide, redactSecrets_idempotent_on_matchless "hello world" (by decide)⟩

/-! ## Registry lemmas -/

theorem lookupKey_none_countP (l : List (String × Nat)) (k : String)
    (h : lookupKey l k = none) : l.countP (fun p => p.1 == k) = 0 := by
  induction l with
  | nil => rfl
  | cons a rest ih =>
    obtain ⟨k1, v⟩ := a
    by_cases hk : (k1 == k) = true
    · simp [lookupKey, hk] at h
    · simp only [Bool.not_eq_true] at hk
      simp only [lookupKey, hk, Bool.false_eq_true, if_false] at h
      simp [List.countP_cons, hk, ih h]

theorem lookupKey_none_of_not_mem (l : List (String × Nat)) (k : String)
    (h : k ∉ l.map Prod.fst) : lookupKey l k = none := by
  induction l with
  | nil => rfl
  | cons a rest ih =>
    obtain ⟨k1, v⟩ := a
    simp only [List.map_cons, List.mem_cons, not_or] at h
    obtain ⟨h1, h2⟩ := h
    have hk : (k1 == k) = false := by
      simp only [beq_eq_false_iff_ne]
      exact fun e => h1 (e ▸ rfl)
    simp [lookupKey, hk, ih h2]

theorem countP_zero_of_not_mem_fst (l : List (String × Nat)) (k : String)
    (h : k ∉ l.map Prod.fst) : l.countP (fun p => p.1 == k) = 0 :=
  lookupKey_none_countP l k (lookupKey_none_of_not_mem l k h)

theorem not_mem_fst_of_countP_zero (l : List (String × Nat)) (k : String)
    (h : l.countP (fun p => p.1 == k) = 0) : k ∉ l.map Prod.fst := by
  intro hmem
  obtain ⟨⟨a, b⟩, hab, rfl⟩ := List.mem_map.mp hmem
  have := List.countP_eq_zero.mp h (a, b) hab
  simp at this

theorem countP_eraseKey_self (l : List (String × Nat)) (k : String)
    (h : keysNodup l) : (eraseKey l k).countP (fun p => p.1 == k) = 0 := by
  induction l with
  | nil => rfl
  | cons a rest ih =>
    obtain ⟨k1, v⟩ := a
    simp only [keysNodup, List.map_cons, List.nodup_cons] at h
    obtain ⟨hnot, hrest⟩ := h
    by_cases hk : (k1 == k) = true
    · have : k1 = k := by simpa using hk
      subst this
      simp only [eraseKey, beq_self_eq_true, if_true]
      exact countP_zero_of_not_mem_fst rest k1 hnot
    · simp only [Bool.not_eq_true] at hk
      simp only [eraseKey, hk, Bool.false_eq_true, if_false]
      simp [List.countP_cons, hk, ih hrest]

theorem eraseKey_sublist_fst (l : List (String × Nat)) (k : String) :
    ((eraseKey l k).map Prod.fst).Sublist (l.map Prod.fst) := by
  induction l with
  | nil => exact List.Sublist.refl _
  | cons a rest ih =>
    obtain ⟨k1, v⟩ := a
    by_cases hk : (k1 == k) = true
    · simp only [eraseKey, hk, if_true, List.map_cons]
      exact List.Sublist.cons _ (List.Sublist.refl _)
    · simp only [Bool.not_eq_true] at hk
      simp only [eraseKey, hk, Bool.false_eq_true, if_false, List.map_cons]
      exact List.Sublist.cons₂ _ ih

theorem keysNodup_eraseKey (l : List (String × Nat)) (k : String)
    (h : keysNodup l) : keysNodup (eraseKey l k) :=
  List.Nodup.sublist (eraseKey_sublist_fst l k) h

theorem lookupKey_eraseKey_ne (l : List (String × Nat)) (k k2 : String)
    (hne : k2 ≠ k) : lookupKey (eraseKey l k) k2 = lookupKey l k2 := by
  induction l with
  | nil => rfl
  | cons a rest ih =>
    obtain ⟨k1, v⟩ := a
    by_cases hk : (k1 == k) = true
    · have : k1 = k := by simpa using hk
      subst this
      have hk2 : (k1 == k2) = false := by
        simp only [beq_eq_false_iff_ne]
        exact fun e => hne (e ▸ rfl)
      simp [eraseKey, lookupKey, hk2]
    · simp only [Bool.not_eq_true] at hk
      by_cases hk2 : (k1 == k2) = true
      · simp [eraseKey, lookupKey, hk, hk2]
      · simp only [Bool.not_eq_true] at hk2
        simp [eraseKey, lookupKey, hk, hk2, ih]

theorem lookupKey_eraseKey_self (l : List (String × Nat)) (k : String)
    (h : keysNodup l) : lookupKey (eraseKey l k) k = none := by
  induction l with
  | nil => rfl
  | cons a rest ih =>
    obtain ⟨k1, v⟩ := a
    simp only [keysNodup, List.map_cons, List.nodup_cons] at h
    obtain ⟨hnot, hrest⟩ := h
    by_cases hk : (k1 == k) = true
    · have : k1 = k := by simpa using hk
      subst this
      simp only [eraseKey, beq_self_eq_true, if_true]
      exact lookupKey_none_of_not_mem rest k1 hnot
    · simp only [Bool.not_eq_true] at hk
      simp [eraseKey, lookupKey, hk, ih hrest]

theorem stop_countP_self (st : StreamerState) (k : String)
    (h : keysNodup st.activeStreams) :
    (stopLogStream st k).activeStreams.countP (fun p => p.1 == k) = 0 := by
  unfold stopLogStream
  cases hl : lookupKey st.activeStreams k with
  | none => exact lookupKey_none_countP _ _ hl
  | some sid => exact countP_eraseKey_self _ _ h

theorem stop_lookup_self (st : StreamerState) (k : String)
    (h : keysNodup st.activeStreams) :
    lookupKey (stopLogStream st k).activeStreams k = none := by
  unfold stopLogStream
  cases hl : lookupKey st.activeStreams k with
  | none => exact hl
  | some sid => exact lookupKey_eraseKey_self _ _ h

theorem stop_keysNodup (st : StreamerState) (k : String)
    (h : keysNodup st.activeStreams) :
    keysNodup (stopLogStream st k).activeStreams := by
  unfold stopLogStream
  cases hl : lookupKey st.activeStreams k with
  | none => exact h
  | some sid => exact keysNodup_eraseKey _ _ h

theorem keysNodup_concat (l : List (String × Nat)) (k : String) (v : Nat)
    (h1 : keysNodup l) (h2 : k ∉ l.map Prod.fst) : keysNodup (l ++ [(k, v)]) := by
  simp only [keysNodup, List.map_append, List.map_cons, List.map_nil]
  refine List.Nodup.append h1 (List.nodup_singleton _) ?_
  intro a ha hb
  simp only [List.mem_singleton] at hb
  subst hb
  exact h2 ha

/-- C5: on successful completion of `startLogStream`, exactly one stream is
registered under the stream key, any stream previously registered under that
key has been destroyed, and the registry keys remain pairwise distinct (no two
streams hold the same key). -/
theorem startLogStream_singleton_per_key
    (st : StreamerState) (opts : LogStreamOptions) (st2 : StreamerState) (sid : String)
    (hnd : keysNodup st.activeStreams)
    (h : startLogStream none st opts = (st2, Except.ok sid)) :
    st2.activeStreams.countP (fun p => p.1 == streamKey opts) = 1 ∧
    (∀ old, lookupKey st.activeStreams (streamKey opts) = some old → old ∈ st2.destroyed) ∧
    keysNodup st2.activeStreams := by
  have hmain :
      st2 = { activeStreams :=
                (stopLogStream st (streamKey opts)).activeStreams ++
                  [(streamKey opts, (stopLogStream st (streamKey opts)).nextId)]
            , destroyed := (stopLogStream st (streamKey opts)).destroyed
            , nextId := (stopLogStream st (streamKey opts)).nextId + 1 } := by
    unfold startLogStream at h
    cases hs : opts.since with
    | none =>
      simp only [hs] at h
      exact (congrArg Prod.fst h).symm
    | some d =>
      cases hp : parseDuration d with
      | error e => simp [hs, hp] at h
      | ok v =>
        simp only [hs, hp] at h
        exact (congrArg Prod.fst h).symm
  subst hmain
  refine ⟨?_, ?_, ?_⟩
  · rw [List.countP_append, stop_countP_self st (streamKey opts) hnd]
    simp [List.countP_cons]
  · intro old hold
    show old ∈ (stopLogStream st (streamKey opts)).destroyed
    unfold stopLogStream
    rw [hold]
    exact List.mem_cons_self _ _
  · exact keysNodup_concat _ _ _ (stop_keysNodup st _ hnd)
      (not_mem_fst_of_countP_zero _ _ (stop_countP_self st _ hnd))

theorem startLogStream_singleton_per_key_witness :
    keysNodup (StreamerState.mk [("a/b/c", 0)] [] 1).activeStreams ∧
    startLogStream none (StreamerState.mk [("a/b/c", 0)] [] 1)
        (LogStreamOptions.mk "a" "b" "c" none none) =
      (StreamerState.mk [("a/b/c", 1)] [0] 2, Except.ok "a/b/c") ∧
    ((StreamerState.mk [("a/b/c", 1)] [0] 2).activeStreams.countP
        (fun p => p.1 == streamKey (LogStreamOptions.mk "a" "b" "c" none none)) = 1 ∧
     (∀ old, lookupKey (StreamerState.mk [("a/b/c", 0)] [] 1).activeStreams
          (streamKey (LogStreamOptions.mk "a" "b" "c" none none)) = some old →
        old ∈ (StreamerState.mk [("a/b/c", 1)] [0] 2).destroyed) ∧
     keysNodup (StreamerState.mk [("a/b/c", 1)] [0] 2).activeStreams) :=
  ⟨by unfold keysNodup; decide, by rfl,
    startLogStream_singleton_per_key (StreamerState.mk [("a/b/c", 0)] [] 1)
      (LogStreamOptions.mk "a" "b" "c" none none)
      (StreamerState.mk [("a/b/c", 1)] [0] 2) "a/b/c" (by unfold keysNodup; decide) (by rfl)⟩

/-- C6: a lookback duration not of the form digits+`s`/`m`/`h` makes
`startLogStream` fail with the descriptive `Invalid duration format` error
before any stream is opened, and afterwards no stream is registered under the
key. -/
theorem startLogStream_invalid_duration_rejected
    (apiError : Option String) (st : StreamerState) (opts : LogStreamOptions) (d : String)
    (hnd : keysNodup st.activeStreams)
    (hs : opts.since = some d)
    (hbad : durationMatch d.data = none) :
    (startLogStream apiError st opts).2 =
      Except.error ("Failed to start log stream: " ++ ("Invalid duration format: " ++ d)) ∧
    lookupKey (startLogStream apiError st opts).1.activeStreams (streamKey opts) = none := by
  have hp : parseDuration d = Except.error ("Invalid duration format: " ++ d) := by
    unfold parseDuration
    rw [hbad]
  unfold startLogStream
  simp only [hs, hp]
  exact ⟨by trivial, stop_lookup_self st (streamKey opts) hnd⟩

theorem startLogStream_invalid_duration_rejected_witness :
    (startLogStream none (StreamerState.mk [("a/b/c", 0)] [] 1)
        (LogStreamOptions.mk "a" "b" "c" (some "5x") none)).2 =
      Except.error ("Failed to start log stream: " ++ ("Invalid duration format: " ++ "5x")) ∧
    lookupKey (startLogStream none (StreamerState.mk [("a/b/c", 0)] [] 1)
        (LogStreamOptions.mk "a" "b" "c" (some "5x") none)).1.activeStreams
      (streamKey (LogStreamOptions.mk "a" "b" "c" (some "5x") none)) = none :=
  startLogStream_invalid_duration_rejected none (StreamerState.mk [("a/b/c", 0)] [] 1)
    (LogStreamOptions.mk "a" "b" "c" (some "5x") none) "5x" (by unfold keysNodup; decide) rfl (by decide)

/-- C7: `stopLogStream` removes at most the entry for its key — lookups for
every other key are unchanged — and on a key with no registered stream it is a
no-op (and raises no error: it is a total function into `StreamerState`). -/
theorem stopLogStream_frame (st : StreamerState) (k k2 : String) :
    (k2 ≠ k → lookupKey (stopLogStream st k).activeStreams k2 = lookupKey st.activeStreams k2) ∧
    (lookupKey st.activeStreams k = none → stopLogStream st k = st) := by
  constructor
  · intro hne
    unfold stopLogStream
    cases hl : lookupKey st.activeStreams k with
    | none => rfl
    | some sid => exact lookupKey_eraseKey_ne _ _ _ hne
  · intro hl
    unfold stopLogStream
    rw [hl]

theorem stopLogStream_frame_witness :
    lookupKey (stopLogStream (StreamerState.mk [("a/b/c", 0), ("d/e/f", 1)] [] 2) "a/b/c").activeStreams
        "d/e/f" =
      lookupKey (StreamerState.mk [("a/b/c", 0), ("d/e/f", 1)] [] 2).activeStreams "d/e/f" ∧
    stopLogStream (StreamerState.mk [("a/b/c", 0)] [] 1) "zzz" =
      StreamerState.mk [("a/b/c", 0)] [] 1 :=
  ⟨(stopLogStream_frame (StreamerState.mk [("a/b/c", 0), ("d/e/f", 1)] [] 2) "a/b/c" "d/e/f").1
      (by decide),
   (stopLogStream_frame (StreamerState.mk [("a/b/c", 0)] [] 1) "zzz" "x").2 (by decide)⟩

/-- C8: `addLogChunk` always leaves the buffer a suffix of "old buffer then
new lines" of length at most `maxBufferSize`: on overflow exactly the
oldest-inserted lines are evicted (FIFO) and the survivors keep insertion
order; equivalently the result is the concatenation with its excess prefix
dropped. -/
theorem addLogChunk_capacity_fifo (logBuffer : List String) (logChunk : String) :
    addLogChunk maxBufferSize logBuffer logChunk =
      (logBuffer ++ chunkLines logChunk).drop
        ((logBuffer ++ chunkLines logChunk).length - maxBufferSize) ∧
    (addLogChunk maxBufferSize logBuffer logChunk).length ≤ maxBufferSize ∧
    (addLogChunk maxBufferSize logBuffer logChunk) <:+ (logBuffer ++ chunkLines logChunk) := by
  have he : addLogChunk maxBufferSize logBuffer logChunk =
      (logBuffer ++ chunkLines logChunk).drop
        ((logBuffer ++ chunkLines logChunk).length - maxBufferSize) := by
    simp only [addLogChunk]
    by_cases hlt : maxBufferSize < (logBuffer ++ chunkLines logChunk).length
    · rw [if_pos hlt]
    · rw [if_neg hlt, Nat.sub_eq_zero_of_le (Nat.le_of_not_lt hlt), List.drop_zero]
  refine ⟨he, ?_, ?_⟩
  · rw [he, List.length_drop]
    omega
  · rw [he]
    exact List.drop_suffix _ _

theorem analyzeAuto_lastTime (st : AnalystUIState) (sel : Bool) (logs : String) :
    (analyzeLogsAutomatically st sel logs).1.lastAnalysisTime = st.lastAnalysisTime := by
  unfold analyzeLogsAutomatically
  split
  · rfl
  · split <;> rfl

/-- C9: once a trigger-eligible `analyzeNewLogs` call has invoked the Analysis
Bridge at time `t1`, a second call less than the 5000 ms cooldown later is
suppressed: it neither invokes the bridge nor changes the state. -/
theorem analyzeNewLogs_debounce (st : AnalystUIState) (t1 t2 : Int)
    (logs1 logs2 : String) (sel1 sel2 : Bool) (st1 : AnalystUIState) (b : Bool)
    (h1 : analyzeNewLogs st t1 logs1 sel1 = (st1, b))
    (hb : b = true) (hlt : t2 - t1 < 5000) :
    analyzeNewLogs st1 t2 logs2 sel2 = (st1, false) := by
  subst hb
  have hlast : st1.lastAnalysisTime = some t1 := by
    cases hs : st.lastAnalysisTime with
    | some t =>
      simp only [analyzeNewLogs, hs] at h1
      by_cases hc : t1 - t < 5000
      · rw [if_pos hc] at h1
        have hsnd := congrArg Prod.snd h1
        simp at hsnd
      · rw [if_neg hc] at h1
        have hfst := congrArg Prod.fst h1
        simp only [] at hfst
        rw [← hfst, analyzeAuto_lastTime]
    | none =>
      simp only [analyzeNewLogs, hs] at h1
      have hfst := congrArg Prod.fst h1
      simp only [] at hfst
      rw [← hfst, analyzeAuto_lastTime]
  simp only [analyzeNewLogs, hlast]
  rw [if_pos hlt]

theorem analyzeNewLogs_debounce_witness :
    analyzeNewLogs (AnalystUIState.mk (some 0) false) 4999
        "short question about the current pod startup failure" true =
      (AnalystUIState.mk (some 0) false, false) :=
  analyzeNewLogs_debounce (AnalystUIState.mk none false) 0 4999
    "aaaaaaaaaaaaaaaaaaaaaaaaaaaaaaaaaaaaaaaaaaaaaaaaaa"
    "short question about the current pod startup failure" true true
    (AnalystUIState.mk (some 0) false) true (by decide) rfl (by decide)

/-- `(String.mk l).data = l` (definitional; stated for `simp`). -/
theorem data_mk (l : List Char) : (String.mk l).data = l := rfl

theorem splitDigits_append (ds r : List Char) (u : Char)
    (hd : ∀ c ∈ ds, c.isDigit = true) (hu : u.isDigit = false) :
    splitDigits (ds ++ u :: r) = (ds, u :: r) := by
  revert hd
  induction ds with
  | nil =>
    intro _
    simp [splitDigits, hu]
  | cons c cs ih =>
    intro hd
    have hc : c.isDigit = true := hd c (List.mem_cons_self _ _)
    have hcs : ∀ x ∈ cs, x.isDigit = true := fun x hx => hd x (List.mem_cons_of_mem _ hx)
    simp [splitDigits, hc, ih hcs]

theorem durationMatch_digits (ds : List Char) (u : Char)
    (hne : ds ≠ []) (hd : ∀ c ∈ ds, c.isDigit = true)
    (hu : u.isDigit = false) (hsmh : u = 's' ∨ u = 'm' ∨ u = 'h') :
    durationMatch (ds ++ [u]) = some (ds, u) := by
  have hlen : 0 < ds.length := List.length_pos.mpr hne
  simp only [durationMatch, splitDigits_append ds [] u hd hu]
  rw [if_pos ⟨hlen, hsmh⟩]

/-- C10: on a string of decimal digits followed by a unit, `parseDuration`
returns the digits' decimal value in seconds: unit `s` gives the value, `m`
multiplies by 60, `h` by 3600. -/
theorem parseDuration_units (ds : List Char)
    (hne : ds ≠ []) (hd : ∀ c ∈ ds, c.isDigit = true) :
    parseDuration (String.mk (ds ++ ['s'])) = Except.ok (digitsVal ds) ∧
    parseDuration (String.mk (ds ++ ['m'])) = Except.ok (60 * digitsVal ds) ∧
    parseDuration (String.mk (ds ++ ['h'])) = Except.ok (3600 * digitsVal ds) := by
  have hs := durationMatch_digits ds 's' hne hd (by decide) (Or.inl rfl)
  have hm := durationMatch_digits ds 'm' hne hd (by decide) (Or.inr (Or.inl rfl))
  have hh := durationMatch_digits ds 'h' hne hd (by decide) (Or.inr (Or.inr rfl))
  refine ⟨?_, ?_, ?_⟩
  · simp [parseDuration, data_mk, hs]
  · simp [parseDuration, data_mk, hm, Nat.mul_comm]
  · simp [parseDuration, data_mk, hh, Nat.mul_comm]

theorem parseDuration_units_witness :
    parseDuration (String.mk (['5'] ++ ['m'])) = Except.ok (60 * digitsVal ['5']) :=
  (parseDuration_units ['5'] (by decide) (by decide)).2.1

/-- C2 counterexample: with a server-side filter pattern configured, the
delivered chunk is the filtered lines of the redacted text, not
`redactSecrets` of the raw chunk itself: at chunk `"keep\ndrop"` with filter
`"keep"` the handler delivers `"keep"` while `redactSecrets` of the raw chunk
is `"keep\ndrop"`. -/
theorem filtered_chunk_not_full_redaction :
    handleChunk (fun _ => some (fun line => containsSubStr line "keep")) (some "keep")
        "keep\ndrop" ≠
      Except.ok (some (redactSecrets "keep\ndrop")) := by
  decide

/-- C2 amended: on the real streaming path every delivered or stored chunk is
computed from `redactSecrets` of the raw upstream chunk — equal to it when no
filter is configured, and equal to the filtered lines of it otherwise; in demo
mode the mock line is forwarded and stored raw without a redaction call, but
every mock log line is a fixed point of `redactSecrets`, so the delivered and
stored text still equals the redaction of the raw upstream text there. -/
theorem chunk_redaction_paths :
    (∀ compile raw, handleChunk compile none raw = Except.ok (some (redactSecrets raw))) ∧
    (∀ compile pat test raw, compile pat = some test →
       handleChunk compile (some pat) raw =
         Except.ok
           (if 0 < ((splitNlStr (redactSecrets raw)).filter test).length then
              some (joinNl ((splitNlStr (redactSecrets raw)).filter test))
            else none)) ∧
    (∀ line ∈ mockAllLines,
       demoModeStored line = redactSecrets line ∧
       demoModeSend line = redactSecrets line ++ "\n") := by
  refine ⟨fun compile raw => rfl, ?_, ?_⟩
  · intro compile pat test raw h
    simp only [handleChunk, h]
  · have hfix : mockAllLines.all (fun l => redactSecrets l == l) = true := by decide
    intro line hline
    have h1 : redactSecrets line = line := by
      have h2 := List.all_eq_true.mp hfix line hline
      simpa using h2
    exact ⟨h1.symm, by rw [h1]; rfl⟩

theorem chunk_redaction_paths_witness :
    handleChunk (fun _ => some (fun _ => true)) (some "x") "a" =
      Except.ok
        (if 0 < ((splitNlStr (redactSecrets "a")).filter (fun _ => true)).length then
           some (joinNl ((splitNlStr (redactSecrets "a")).filter (fun _ => true)))
         else none) :=
  chunk_redaction_paths.2.1 (fun _ => some (fun _ => true)) "x" (fun _ => true) "a" rfl

/-- C4 counterexample: the server-side stream filter has no invalid-pattern
fallback.  With a pattern the regex engine rejects (`compile` returns `none`),
the data handler fails (`new RegExp` throws) instead of delivering the line
`"err line"`, which case-insensitive substring containment of `"err"` would
have kept. -/
theorem server_filter_invalid_regex_fails :
    handleChunk (fun _ => none) (some "err") "err line" = Except.error () ∧
    ¬ handleChunk (fun _ => none) (some "err") "err line" =
        Except.ok (some "err line") :=
  ⟨rfl, by decide⟩

/-- C4 amended: only the client-side viewer filter falls back to
case-insensitive plain substring containment on an invalid pattern; the
server-side stream filter constructs the regex unguarded, so an invalid
pattern fails the chunk handler instead of falling back. -/
theorem invalid_pattern_filter_paths :
    (∀ compile filter msg, filter ≠ "" → compile filter = none →
       clientFilterKeeps compile filter msg =
         containsSubStr (jsToLower msg) (jsToLower filter)) ∧
    (∀ compile pat raw, compile pat = none →
       handleChunk compile (some pat) raw = Except.error ()) := by
  constructor
  · intro compile filter msg hne hc
    simp only [clientFilterKeeps, if_neg hne, hc]
  · intro compile pat raw hc
    simp only [handleChunk, hc]

theorem invalid_pattern_filter_paths_witness :
    clientFilterKeeps (fun _ => none) "[" "Xy" =
      containsSubStr (jsToLower "Xy") (jsToLower "[") :=
  invalid_pattern_filter_paths.1 (fun _ => none) "[" "Xy" (by decide) rfl

end Intellig
